import Mathlib

/-!
Shallow embedding of the `terminology` reference-data service: the data model of
`refbooks/models.py` and the three read operations of `refbooks/views.py`
(`RefbookListView`, `RefbookItemListView`, `RefbookItemValidationView`),
together with the serializer projection of `refbooks/serializers.py`.

Modelling conventions:
* A database state is a `Store`: the three tables as lists of rows in storage
  (insertion) order.
* Query sets are lists; `filter` is `List.filter`, `.order_by` is a stable sort
  (`List.insertionSort`, which is stable), `.first()` is `List.head?`,
  `.exists()` is `List.any`.
* `Refbook.objects.filter(versions__start_date__lte=d).distinct()` joins the
  versions table and deduplicates the refbook rows; its result set is exactly
  the refbook rows having at least one version with `start_date <= d`, each
  once, which is `List.filter` with an existential predicate over the rows.
* Django request handlers that raise (`NotFound`, `MultipleObjectsReturned`,
  `ValueError`) or return an error response are modelled with `Except`.
* Python truthiness of an optional string parameter (`if version_param:`) is
  `strTruthy`: `None` and `""` are falsy.
-/

/-- Calendar date (Python `datetime.date`): year, month, day, compared
chronologically, i.e. lexicographically. -/
structure PyDate where
  year : Nat
  month : Nat
  day : Nat
deriving DecidableEq

/-- Chronological `<=` on dates, as SQL compares `DateField` values. -/
def PyDate.ble (a b : PyDate) : Bool :=
  decide (a.year < b.year) ||
    (decide (a.year = b.year) &&
      (decide (a.month < b.month) ||
        (decide (a.month = b.month) && decide (a.day ≤ b.day))))

theorem PyDate.ble_iff {a b : PyDate} :
    PyDate.ble a b = true ↔
      a.year < b.year ∨ (a.year = b.year ∧
        (a.month < b.month ∨ (a.month = b.month ∧ a.day ≤ b.day))) := by
  simp [PyDate.ble]

theorem PyDate.ble_refl (a : PyDate) : PyDate.ble a a = true := by
  simp [PyDate.ble_iff]

theorem PyDate.ble_trans {a b c : PyDate} (h1 : PyDate.ble a b = true)
    (h2 : PyDate.ble b c = true) : PyDate.ble a c = true := by
  rw [PyDate.ble_iff] at h1 h2 ⊢
  omega

theorem PyDate.ble_total (a b : PyDate) :
    PyDate.ble a b = true ∨ PyDate.ble b a = true := by
  rw [PyDate.ble_iff, PyDate.ble_iff]
  omega

/-- Row of the `Refbook` table (`models.Refbook`): primary key `id`, unique
`code`, `name`, optional `description`. -/
structure Refbook where
  id : Nat
  code : String
  name : String
  description : Option String
deriving DecidableEq

/-- Row of the `RefbookVersion` table (`models.RefbookVersion`): primary key
`id`, foreign key `refbook_id`, the `version` label and the `start_date`. -/
structure RefbookVersion where
  id : Nat
  refbook_id : Nat
  version : String
  start_date : PyDate
deriving DecidableEq

/-- Row of the `RefbookItem` table (`models.RefbookItem`): primary key `id`,
foreign key `version_id`, the `code` and the `value`. -/
structure RefbookItem where
  id : Nat
  version_id : Nat
  code : String
  value : String
deriving DecidableEq

/-- A database state: the three tables, rows in storage (insertion) order. -/
structure Store where
  refbooks : List Refbook
  versions : List RefbookVersion
  items : List RefbookItem

/-- The database invariants enforced by the model declarations: primary keys
are unique, and `models.RefbookVersion` has
`UniqueConstraint(fields=[refbook, version])`. -/
structure Store.WF (s : Store) : Prop where
  refbook_ids_nodup : (s.refbooks.map Refbook.id).Nodup
  version_ids_nodup : (s.versions.map RefbookVersion.id).Nodup
  version_label_unique : ∀ v ∈ s.versions, ∀ w ∈ s.versions,
    v.refbook_id = w.refbook_id → v.version = w.version → v = w

/-- Python truthiness of an optional string query parameter: absent (`None`)
and the empty string are falsy. -/
def strTruthy : Option String → Bool
  | none => false
  | some s => !(s == "")

/-- Leap-year test of the Gregorian calendar (Python `calendar.isleap`). -/
def isLeapYear (y : Nat) : Bool :=
  (y % 4 == 0 && y % 100 != 0) || (y % 400 == 0)

/-- Number of days in a month, as `datetime.date` validates its `day`. -/
def daysInMonth (y m : Nat) : Nat :=
  if m == 2 then (if isLeapYear y then 29 else 28)
  else if m == 4 || m == 6 || m == 9 || m == 11 then 30
  else 31

/-- Validity check performed by the `datetime.date` constructor:
`MINYEAR <= year` (the regex already bounds the year to four digits),
`1 <= month <= 12` and `1 <= day <= daysInMonth`. -/
def dateValid (y m d : Nat) : Bool :=
  decide (1 ≤ y) && decide (1 ≤ m) && decide (m ≤ 12) &&
    decide (1 ≤ d) && decide (d ≤ daysInMonth y m)

/-- Numeric value of a digit string. -/
def digitsVal (cs : List Char) : Nat :=
  cs.foldl (fun a c => a * 10 + (c.toNat - 48)) 0

/-- Match of Django's date regex
`(?P<year>\d\x7b4\x7d)-(?P<month>\d\x7b1,2\x7d)-(?P<day>\d\x7b1,2\x7d)$`
against a whole string (`re.match` anchors at the start; `$` also matches just
before one trailing newline). Returns the captured numeric fields. -/
def matchDateRe (cs : List Char) : Option (Nat × Nat × Nat) :=
  let ys := cs.takeWhile Char.isDigit
  let r1 := cs.dropWhile Char.isDigit
  if ys.length == 4 then
    match r1 with
    | c1 :: r2 =>
      if c1 == '-' then
        let ms := r2.takeWhile Char.isDigit
        let r3 := r2.dropWhile Char.isDigit
        if ms.length == 1 || ms.length == 2 then
          match r3 with
          | c2 :: r4 =>
            if c2 == '-' then
              let ds := r4.takeWhile Char.isDigit
              let r5 := r4.dropWhile Char.isDigit
              if (ds.length == 1 || ds.length == 2) &&
                  (r5 == [] || r5 == ['\n']) then
                some (digitsVal ys, digitsVal ms, digitsVal ds)
              else none
            else none
          | [] => none
        else none
      else none
    | [] => none
  else none

/-- Model of `django.utils.dateparse.parse_date`: `none` when the string does not match
the date regex; when it matches, the result of `datetime.date(year, month,
day)`, which raises `ValueError` (modelled as `Except.error ()`) if the matched
numbers are not a valid calendar date. -/
def parse_date (s : String) : Except Unit (Option PyDate) :=
  match matchDateRe s.data with
  | none => .ok none
  | some (y, m, d) =>
      if dateValid y m d then .ok (some ⟨y, m, d⟩) else .error ()

/-- Embedding of `RefbookListView.get_queryset` (`views.py` lines 27-42): start from all
refbooks; when a truthy `date` parameter is given, parse it; when parsing
yields a date, keep exactly the refbooks that have a version with
`start_date <= date`, deduplicated (`.distinct()`); a falsy parse result (no
regex match) leaves the query set unfiltered. An uncaught `ValueError` from
`parse_date` is the error case. -/
def refbookList_get_queryset (s : Store) (date_param : Option String) :
    Except Unit (List Refbook) :=
  if strTruthy date_param then
    match parse_date (date_param.getD "") with
    | .error e => .error e
    | .ok none => .ok s.refbooks
    | .ok (some parsed) =>
        .ok (s.refbooks.filter fun r =>
          s.versions.any fun v =>
            v.refbook_id == r.id && PyDate.ble v.start_date parsed)
  else
    .ok s.refbooks

/-- The errors a request handler can produce: DRF `NotFound` (404) carrying
the `error` message, the bad-request response (400) of the validation view,
and Django's `MultipleObjectsReturned` exception, which `.get()` raises when
several rows match (impossible under `Store.WF`). -/
inductive ApiError where
  | notFound (error : String)
  | badRequest (error : String)
  | multipleObjectsReturned
deriving DecidableEq

/-- Embedding of `RefbookItemMixin._get_refbook_or_404` (`views.py` lines 99-116):
`Refbook.objects.get(id=refbook_id)`, with `DoesNotExist` mapped to a 404. -/
def get_refbook_or_404 (s : Store) (refbook_id : Nat) : Except ApiError Refbook :=
  match s.refbooks.filter (fun r => r.id == refbook_id) with
  | [] => .error (.notFound
      ("Refbook with ID \x27" ++ toString refbook_id ++ "\x27 not found."))
  | [r] => .ok r
  | _ => .error .multipleObjectsReturned

/-- The versions of `refbook` whose `start_date` is on or before `today`:
`RefbookVersion.objects.filter(refbook=refbook, start_date__lte=today)`, in
storage order. -/
def effectiveVersions (s : Store) (refbook : Refbook) (today : PyDate) :
    List RefbookVersion :=
  s.versions.filter fun v =>
    v.refbook_id == refbook.id && PyDate.ble v.start_date today

/-- The sort key of `.order_by(\x27-start_date\x27)`: `v` comes before `w`
when `v.start_date >= w.start_date`. -/
def startDateDesc (v w : RefbookVersion) : Prop :=
  PyDate.ble w.start_date v.start_date = true

instance : DecidableRel startDateDesc := fun v w =>
  inferInstanceAs (Decidable (PyDate.ble w.start_date v.start_date = true))

instance : IsTotal RefbookVersion startDateDesc :=
  ⟨fun a b => PyDate.ble_total b.start_date a.start_date⟩

instance : IsTrans RefbookVersion startDateDesc :=
  ⟨fun _ _ _ h1 h2 => PyDate.ble_trans h2 h1⟩

/-- The query
`...filter(refbook=refbook, start_date__lte=today).order_by(\x27-start_date\x27).first()`
(`views.py` lines 141-144): stable sort of the effective versions by
descending `start_date`, then the first row if any. -/
def latest_version (s : Store) (refbook : Refbook) (today : PyDate) :
    Option RefbookVersion :=
  ((effectiveVersions s refbook today).insertionSort startDateDesc).head?

/-- Embedding of `RefbookItemMixin._get_version_or_404` (`views.py` lines 118-148): with a
truthy `version` parameter, `RefbookVersion.objects.get(refbook=refbook,
version=version_param)` with `DoesNotExist` mapped to a 404; otherwise the
latest effective version, or a 404 when there is none. -/
def get_version_or_404 (s : Store) (version_param : Option String)
    (today : PyDate) (refbook : Refbook) : Except ApiError RefbookVersion :=
  if strTruthy version_param then
    match s.versions.filter (fun v =>
        v.refbook_id == refbook.id && v.version == version_param.getD "") with
    | [] => .error (.notFound
        ("Version \x27" ++ version_param.getD "" ++
          "\x27 not found for the given refbook."))
    | [v] => .ok v
    | _ => .error .multipleObjectsReturned
  else
    match latest_version s refbook today with
    | some v => .ok v
    | none => .error (.notFound
        ("No valid version found for the refbook ID \x27" ++
          toString refbook.id ++ "\x27."))

/-- The item rows of one version: `version.items`. -/
def version_items (s : Store) (v : RefbookVersion) : List RefbookItem :=
  s.items.filter fun it => it.version_id == v.id

/-- Embedding of `RefbookItemListView.get_queryset` followed by `RefbookItemSerializer`
(`views.py` lines 159-172, `serializers.py` lines 11-14): resolve the refbook,
resolve the version, return the version's items projected to
`(code, value)`. -/
def elements_get (s : Store) (refbook_id : Nat) (version_param : Option String)
    (today : PyDate) : Except ApiError (List (String × String)) :=
  match get_refbook_or_404 s refbook_id with
  | .error e => .error e
  | .ok refbook =>
    match get_version_or_404 s version_param today refbook with
    | .error e => .error e
    | .ok version =>
        .ok ((version_items s version).map fun it => (it.code, it.value))

/-- Embedding of `RefbookItemValidationView.get` (`views.py` lines 306-338): reject a falsy
`code` or `value` with the 400 response before any lookup; then resolve the
refbook and version, and report whether an item row of the resolved version
matches both `code` and `value` exactly. -/
def check_element_get (s : Store) (refbook_id : Nat)
    (code value version_param : Option String) (today : PyDate) :
    Except ApiError Bool :=
  if !strTruthy code || !strTruthy value then
    .error (.badRequest "Missing required parameters: code or/and value.")
  else
    match get_refbook_or_404 s refbook_id with
    | .error e => .error e
    | .ok refbook =>
      match get_version_or_404 s version_param today refbook with
      | .error e => .error e
      | .ok version =>
          .ok ((version_items s version).any fun it =>
            it.code == code.getD "" && it.value == value.getD "")

/-! Helper lemmas about the version resolver. -/

theorem strTruthy_some_ne {s : String} (h : s ≠ "") :
    strTruthy (some s) = true := by
  simp [strTruthy, h]

/-- With no `version` parameter the resolver reduces to the latest-effective
lookup. -/
theorem get_version_none_eq (s : Store) (r : Refbook) (d : PyDate) :
    get_version_or_404 s none d r =
      match latest_version s r d with
      | some v => .ok v
      | none => .error (.notFound
          ("No valid version found for the refbook ID \x27" ++
            toString r.id ++ "\x27.")) := rfl

theorem latest_version_eq_none_iff (s : Store) (r : Refbook) (d : PyDate) :
    latest_version s r d = none ↔ effectiveVersions s r d = [] := by
  unfold latest_version
  rw [List.head?_eq_none_iff]
  constructor
  · intro h
    have hlen := (List.perm_insertionSort startDateDesc
      (effectiveVersions s r d)).length_eq
    rw [h] at hlen
    exact List.length_eq_zero.mp hlen.symm
  · intro h
    rw [h]
    rfl

/-- The version returned by the latest-effective lookup is an effective
version and its `start_date` dominates every effective version. -/
theorem latest_version_spec {s : Store} {r : Refbook} {d : PyDate}
    {v : RefbookVersion} (h : latest_version s r d = some v) :
    v ∈ effectiveVersions s r d ∧
      ∀ w ∈ effectiveVersions s r d,
        PyDate.ble w.start_date v.start_date = true := by
  unfold latest_version at h
  match hs : (effectiveVersions s r d).insertionSort startDateDesc with
  | [] =>
    rw [hs] at h
    cases h
  | m :: t =>
    rw [hs] at h
    have hmv : m = v := by
      simpa using h
    subst hmv
    have hperm := List.perm_insertionSort startDateDesc (effectiveVersions s r d)
    rw [hs] at hperm
    have hsorted := List.sorted_insertionSort startDateDesc (effectiveVersions s r d)
    rw [hs] at hsorted
    refine ⟨hperm.subset (List.mem_cons_self m t), ?_⟩
    intro w hw
    rcases List.mem_cons.mp (hperm.mem_iff.mpr hw) with hb1 | hb2
    · subst hb1
      exact PyDate.ble_refl w.start_date
    · exact List.rel_of_sorted_cons hsorted w hb2

theorem latest_version_isSome {s : Store} {r : Refbook} {d : PyDate}
    (h : effectiveVersions s r d ≠ []) :
    ∃ v, latest_version s r d = some v := by
  cases hl : latest_version s r d with
  | none => exact absurd ((latest_version_eq_none_iff s r d).mp hl) h
  | some v => exact ⟨v, rfl⟩

/-- Head of a stable sort of a duplicate-free list: the first element (in the
original order) among the elements that are `r`-below everything, i.e. the
first element attaining the optimum. -/
theorem head?_insertionSort_eq_find? {α : Type} (r : α → α → Prop)
    [DecidableRel r] [IsTotal α r] [IsTrans α r] (l : List α) (hn : l.Nodup) :
    (l.insertionSort r).head? = l.find? (fun a => l.all fun b => decide (r a b)) := by
  match hs : l.insertionSort r with
  | [] =>
    have hl : l = [] := by
      have hlen := (List.perm_insertionSort r l).length_eq
      rw [hs] at hlen
      exact List.length_eq_zero.mp hlen.symm
    subst hl
    rfl
  | m :: t =>
    have hperm := List.perm_insertionSort r l
    rw [hs] at hperm
    have hm : m ∈ l := hperm.subset (List.mem_cons_self m t)
    have hsorted := List.sorted_insertionSort r l
    rw [hs] at hsorted
    have hmax : ∀ b ∈ l, r m b := by
      intro b hb
      rcases List.mem_cons.mp (hperm.mem_iff.mpr hb) with hb1 | hb2
      · subst hb1
        rcases total_of r b b with h | h <;> exact h
      · exact List.rel_of_sorted_cons hsorted b hb2
    obtain ⟨l₁, l₂, hdecomp⟩ := List.append_of_mem hm
    have hnodup2 : (m :: t).Nodup := hperm.nodup_iff.mpr hn
    have hmnotl₁ : m ∉ l₁ := by
      intro hin
      rw [hdecomp] at hn
      rcases List.nodup_append.mp hn with ⟨_, _, hdisj⟩
      exact hdisj hin (List.mem_cons_self m l₂)
    refine Eq.symm (List.find?_eq_some.mpr ⟨?_, l₁, l₂, hdecomp, ?_⟩)
    · simp only [List.all_eq_true, decide_eq_true_eq]
      exact hmax
    · intro a ha
      have hnp : ¬ (l.all fun b => decide (r a b)) = true := by
        intro hpa
        have hram : r a m := of_decide_eq_true (List.all_eq_true.mp hpa m hm)
        have hane : a ≠ m := fun he => hmnotl₁ (he ▸ ha)
        have hsub : List.Sublist [a, m] l := by
          rw [hdecomp]
          exact (List.singleton_sublist.mpr ha).append
            (List.singleton_sublist.mpr (List.mem_cons_self m l₂))
        have hpair := List.pair_sublist_insertionSort hram hsub
        rw [hs] at hpair
        cases hpair with
        | cons _ h =>
          have hmt : m ∈ t := h.subset (by simp)
          exact (List.nodup_cons.mp hnodup2).1 hmt
        | cons₂ _ h => exact hane rfl
      have hfalse : (l.all fun b => decide (r a b)) = false := by
        cases hpb : (l.all fun b => decide (r a b)) with
        | false => rfl
        | true => exact absurd hpb hnp
      simp [hfalse]

/-- The first-stored maximum: the first row, in storage order, among the
effective versions whose `start_date` dominates all effective versions. The
amended tie-break rule of C1 says the resolver returns exactly this row. -/
def firstStoredMax (s : Store) (r : Refbook) (d : PyDate) :
    Option RefbookVersion :=
  (effectiveVersions s r d).find? fun v =>
    (effectiveVersions s r d).all fun w => decide (startDateDesc v w)

theorem latest_version_eq_firstStoredMax (s : Store) (r : Refbook) (d : PyDate)
    (hn : (s.versions.map RefbookVersion.id).Nodup) :
    latest_version s r d = firstStoredMax s r d := by
  have hnv : s.versions.Nodup := List.Nodup.of_map _ hn
  have hne : (effectiveVersions s r d).Nodup := List.Nodup.filter _ hnv
  exact head?_insertionSort_eq_find? startDateDesc (effectiveVersions s r d) hne

/-- Membership in the effective-version query set. -/
theorem mem_effectiveVersions {s : Store} {r : Refbook} {d : PyDate}
    {v : RefbookVersion} :
    v ∈ effectiveVersions s r d ↔
      v ∈ s.versions ∧ v.refbook_id = r.id ∧
        PyDate.ble v.start_date d = true := by
  simp [effectiveVersions, List.mem_filter]

/-- No-selector resolution succeeds exactly when some version of the refbook
has `start_date` on or before the reference date. -/
theorem get_version_none_ok_iff (s : Store) (r : Refbook) (d : PyDate) :
    (∃ v, get_version_or_404 s none d r = .ok v) ↔
      ∃ v ∈ s.versions, v.refbook_id = r.id ∧
        PyDate.ble v.start_date d = true := by
  rw [get_version_none_eq]
  constructor
  · rintro ⟨v, hv⟩
    cases hl : latest_version s r d with
    | none =>
      rw [hl] at hv
      cases hv
    | some w =>
      have hw := mem_effectiveVersions.mp (latest_version_spec hl).1
      exact ⟨w, hw.1, hw.2.1, hw.2.2⟩
  · rintro ⟨v, hvm, h1, h2⟩
    have hne : effectiveVersions s r d ≠ [] := by
      intro h0
      have hm := mem_effectiveVersions.mpr ⟨hvm, h1, h2⟩
      rw [h0] at hm
      cases hm
    obtain ⟨w, hw⟩ := latest_version_isSome hne
    rw [hw]
    exact ⟨w, rfl⟩

/-! Concrete database states used as witnesses and counterexamples.
`demoStore` mirrors the fixture of `refbooks/tests.py` (three refbooks, three
versions, three items, reference date 2024-05-10); `tieStore` holds one
refbook with two versions sharing one `start_date`. -/

def demoD : PyDate := ⟨2024, 5, 10⟩

def demoRB1 : Refbook := ⟨1, "REF1", "Refbook 1", some "Description 1"⟩

def demoRB2 : Refbook := ⟨2, "REF2", "Refbook 2", some "Description 2"⟩

def demoRB3 : Refbook := ⟨3, "REF3", "Refbook 3", some "Description 3"⟩

def demoV1 : RefbookVersion := ⟨1, 1, "1.0", ⟨2024, 5, 8⟩⟩

def demoV2 : RefbookVersion := ⟨2, 2, "1.0", ⟨2024, 5, 8⟩⟩

def demoV3 : RefbookVersion := ⟨3, 2, "2.0", ⟨2024, 5, 10⟩⟩

def demoI1 : RefbookItem := ⟨1, 2, "ITEM1", "Value 1 old"⟩

def demoI2 : RefbookItem := ⟨2, 3, "ITEM1", "Value 1"⟩

def demoI3 : RefbookItem := ⟨3, 3, "ITEM2", "Value 2"⟩

def demoStore : Store :=
  ⟨[demoRB1, demoRB2, demoRB3], [demoV1, demoV2, demoV3],
    [demoI1, demoI2, demoI3]⟩

theorem demoStore_wf : demoStore.WF := ⟨by decide, by decide, by decide⟩

def tieDate : PyDate := ⟨2024, 5, 1⟩

def tieRefbook : Refbook := ⟨1, "REF1", "Refbook 1", none⟩

def tieV1 : RefbookVersion := ⟨1, 1, "1.0", ⟨2024, 5, 1⟩⟩

def tieV2 : RefbookVersion := ⟨2, 1, "2.0", ⟨2024, 5, 1⟩⟩

def tieStore : Store := ⟨[tieRefbook], [tieV1, tieV2], []⟩

/-! Claims. -/

/-- Claim C1, as stated, is false: in `tieStore` the versions with ids 1 and 2
of refbook 1 share the same maximal `start_date` on or before the reference
date, the highest internal id among the tied ones is 2, yet resolution with no
version selector returns the version with id 1. -/
theorem c1_counterexample :
    tieV1.start_date = tieV2.start_date ∧
    PyDate.ble tieV1.start_date tieDate = true ∧
    tieV1.id < tieV2.id ∧
    get_version_or_404 tieStore none tieDate tieRefbook = .ok tieV1 :=
  ⟨rfl, rfl, by decide, rfl⟩

/-- Claim C1 (amended): for every refbook, resolution with no version selector
returns the first row in storage order among the effective versions whose
`start_date` dominates all effective versions — so on a `start_date` tie the
earliest-stored (under insertion order, the lowest-id) version wins, not the
highest-id one — and fails with the no-valid-version 404 when there is no
effective version. -/
theorem c1_amended_tie_break (s : Store) (r : Refbook) (d : PyDate)
    (hn : (s.versions.map RefbookVersion.id).Nodup) :
    get_version_or_404 s none d r =
      match firstStoredMax s r d with
      | some v => .ok v
      | none => .error (.notFound
          ("No valid version found for the refbook ID \x27" ++
            toString r.id ++ "\x27.")) := by
  rw [get_version_none_eq, latest_version_eq_firstStoredMax s r d hn]

theorem c1_amended_tie_break_witness :
    get_version_or_404 tieStore none tieDate tieRefbook =
      match firstStoredMax tieStore tieRefbook tieDate with
      | some v => .ok v
      | none => .error (.notFound
          ("No valid version found for the refbook ID \x27" ++
            toString tieRefbook.id ++ "\x27.")) :=
  c1_amended_tie_break tieStore tieRefbook tieDate (by decide)

/-- Claim C2: with no version selector, resolution returns a version of the
refbook with `start_date` on or before the reference date and maximal among
such; it succeeds exactly when one exists; and whenever no version qualifies —
whether the refbook has no versions at all or only versions with future
`start_date` — it fails with the single no-valid-version message. -/
theorem c2_no_selector_resolution (s : Store) (r : Refbook) (d : PyDate) :
    (∀ v, get_version_or_404 s none d r = .ok v →
      v ∈ s.versions ∧ v.refbook_id = r.id ∧
        PyDate.ble v.start_date d = true ∧
        ∀ w ∈ s.versions, w.refbook_id = r.id →
          PyDate.ble w.start_date d = true →
          PyDate.ble w.start_date v.start_date = true) ∧
    ((∃ v ∈ s.versions, v.refbook_id = r.id ∧
        PyDate.ble v.start_date d = true) →
      ∃ v, get_version_or_404 s none d r = .ok v) ∧
    ((∀ v ∈ s.versions, ¬(v.refbook_id = r.id ∧
        PyDate.ble v.start_date d = true)) →
      get_version_or_404 s none d r = .error (.notFound
        ("No valid version found for the refbook ID \x27" ++
          toString r.id ++ "\x27."))) := by
  refine ⟨?_, ?_, ?_⟩
  · intro v hv
    rw [get_version_none_eq] at hv
    cases hl : latest_version s r d with
    | none =>
      rw [hl] at hv
      cases hv
    | some w =>
      rw [hl] at hv
      have hwv : w = v := by
        simpa using hv
      subst hwv
      obtain ⟨hmem, hmax⟩ := latest_version_spec hl
      obtain ⟨h1, h2, h3⟩ := mem_effectiveVersions.mp hmem
      exact ⟨h1, h2, h3, fun u hu1 hu2 hu3 =>
        hmax u (mem_effectiveVersions.mpr ⟨hu1, hu2, hu3⟩)⟩
  · exact fun h => (get_version_none_ok_iff s r d).mpr h
  · intro hall
    have h0 : effectiveVersions s r d = [] := by
      unfold effectiveVersions
      rw [List.filter_eq_nil_iff]
      intro a ha hpa
      rw [Bool.and_eq_true, beq_iff_eq] at hpa
      exact hall a ha ⟨hpa.1, hpa.2⟩
    rw [get_version_none_eq, (latest_version_eq_none_iff s r d).mpr h0]

theorem c2_witness :
    ∃ v, get_version_or_404 demoStore none demoD demoRB2 = .ok v :=
  (c2_no_selector_resolution demoStore demoRB2 demoD).2.1
    ⟨demoV2, by decide, by decide, by decide⟩

/-- With a truthy `version` parameter the resolver reduces to the
label-equality lookup. -/
theorem get_version_some_eq (s : Store) (r : Refbook) (L : String)
    (hL : L ≠ "") (d : PyDate) :
    get_version_or_404 s (some L) d r =
      match s.versions.filter
          (fun v => v.refbook_id == r.id && v.version == L) with
      | [] => .error (.notFound
          ("Version \x27" ++ L ++ "\x27 not found for the given refbook."))
      | [v] => .ok v
      | _ => .error .multipleObjectsReturned := by
  unfold get_version_or_404
  simp [strTruthy_some_ne hL]

/-- Membership in the label-equality query set. -/
theorem mem_filter_label {s : Store} {r : Refbook} {L : String}
    {x : RefbookVersion} :
    x ∈ s.versions.filter (fun w => w.refbook_id == r.id && w.version == L) ↔
      x ∈ s.versions ∧ x.refbook_id = r.id ∧ x.version = L := by
  simp [List.mem_filter]

/-- Claim C3: with an explicit non-empty version label the resolution result
does not depend on the reference date; a success returns a version of the
refbook whose label equals the selector exactly; when a matching version
exists it is returned and is unique; and when none matches the resolver fails
with the version-not-found 404. -/
theorem c3_explicit_label_resolution (s : Store) (hWF : s.WF) (r : Refbook)
    (L : String) (hL : L ≠ "") (d d2 : PyDate) :
    (get_version_or_404 s (some L) d r = get_version_or_404 s (some L) d2 r) ∧
    (∀ v, get_version_or_404 s (some L) d r = .ok v →
      v ∈ s.versions ∧ v.refbook_id = r.id ∧ v.version = L) ∧
    ((∃ v ∈ s.versions, v.refbook_id = r.id ∧ v.version = L) →
      ∃ v, get_version_or_404 s (some L) d r = .ok v ∧
        ∀ w ∈ s.versions, w.refbook_id = r.id → w.version = L → w = v) ∧
    ((∀ v ∈ s.versions, ¬(v.refbook_id = r.id ∧ v.version = L)) →
      get_version_or_404 s (some L) d r = .error (.notFound
        ("Version \x27" ++ L ++ "\x27 not found for the given refbook."))) := by
  refine ⟨?_, ?_, ?_, ?_⟩
  · rw [get_version_some_eq s r L hL d, get_version_some_eq s r L hL d2]
  · intro v hv
    rw [get_version_some_eq s r L hL d] at hv
    cases hfil : s.versions.filter
        (fun w => w.refbook_id == r.id && w.version == L) with
    | nil =>
      rw [hfil] at hv
      cases hv
    | cons a tl =>
      cases tl with
      | nil =>
        rw [hfil] at hv
        have hav : a = v := by
          simpa using hv
        subst hav
        exact mem_filter_label.mp (by rw [hfil]; exact List.mem_cons_self a [])
      | cons b tl2 =>
        rw [hfil] at hv
        cases hv
  · rintro ⟨v, hvm, h1, h2⟩
    have hallv : ∀ x ∈ s.versions.filter
        (fun w => w.refbook_id == r.id && w.version == L), x = v := by
      intro x hx
      obtain ⟨hx1, hx2, hx3⟩ := mem_filter_label.mp hx
      exact hWF.version_label_unique x hx1 v hvm (by rw [hx2, h1])
        (by rw [hx3, h2])
    have hvfil : v ∈ s.versions.filter
        (fun w => w.refbook_id == r.id && w.version == L) :=
      mem_filter_label.mpr ⟨hvm, h1, h2⟩
    have hnodupfil := List.Nodup.filter
      (fun w => w.refbook_id == r.id && w.version == L)
      (List.Nodup.of_map _ hWF.version_ids_nodup)
    cases hfil : s.versions.filter
        (fun w => w.refbook_id == r.id && w.version == L) with
    | nil =>
      rw [hfil] at hvfil
      cases hvfil
    | cons a tl =>
      cases tl with
      | nil =>
        have hav : a = v := hallv a (by rw [hfil]; exact List.mem_cons_self a [])
        refine ⟨a, ?_, ?_⟩
        · rw [get_version_some_eq s r L hL d, hfil]
        · intro w hw hw1 hw2
          rw [hav]
          exact hallv w (mem_filter_label.mpr ⟨hw, hw1, hw2⟩)
      | cons b tl2 =>
        exfalso
        have hab : a = v := hallv a (by rw [hfil]; simp)
        have hbb : b = v := hallv b (by rw [hfil]; simp)
        rw [hfil] at hnodupfil
        rcases List.nodup_cons.mp hnodupfil with ⟨hna, _⟩
        exact hna (by rw [hab, ← hbb]; exact List.mem_cons_self b tl2)
  · intro hnone
    have h0 : s.versions.filter
        (fun w => w.refbook_id == r.id && w.version == L) = [] := by
      rw [List.filter_eq_nil_iff]
      intro a ha hpa
      simp only [Bool.and_eq_true, beq_iff_eq] at hpa
      exact hnone a ha ⟨hpa.1, hpa.2⟩
    rw [get_version_some_eq s r L hL d, h0]

theorem c3_witness :
    ∃ v, get_version_or_404 demoStore (some "1.0") demoD demoRB2 = .ok v ∧
      ∀ w ∈ demoStore.versions, w.refbook_id = demoRB2.id →
        w.version = "1.0" → w = v :=
  (c3_explicit_label_resolution demoStore demoStore_wf demoRB2 "1.0"
    (by decide) demoD demoD).2.2.1 ⟨demoV2, by decide, by decide, by decide⟩

/-- Claim C4: with no `date` parameter the catalog returns all refbooks; with
a `date` parameter parsing to `D` it returns a query set containing exactly
the refbooks with at least one version whose `start_date` is on or before `D`
— equivalently those for which no-selector resolution at `D` succeeds — each
appearing exactly once. -/
theorem c4_catalog_date_filter (s : Store) (hWF : s.WF) (D : PyDate)
    (dstr : String) (hparse : parse_date dstr = .ok (some D)) :
    refbookList_get_queryset s none = .ok s.refbooks ∧
    ∃ qs, refbookList_get_queryset s (some dstr) = .ok qs ∧
      (∀ r, r ∈ qs ↔ r ∈ s.refbooks ∧
        ∃ v, get_version_or_404 s none D r = .ok v) ∧
      (∀ r ∈ qs, qs.count r = 1) := by
  have hne : dstr ≠ "" := by
    rintro rfl
    rw [show parse_date "" = .ok none from rfl] at hparse
    simp at hparse
  have hq : refbookList_get_queryset s (some dstr) =
      .ok (s.refbooks.filter fun r => s.versions.any fun v =>
        v.refbook_id == r.id && PyDate.ble v.start_date D) := by
    unfold refbookList_get_queryset
    simp [strTruthy_some_ne hne, hparse]
  refine ⟨rfl, _, hq, ?_, ?_⟩
  · intro r
    rw [List.mem_filter, get_version_none_ok_iff s r D]
    simp [List.any_eq_true]
  · intro r hr
    have hnodup : (s.refbooks.filter fun r => s.versions.any fun v =>
        v.refbook_id == r.id && PyDate.ble v.start_date D).Nodup :=
      List.Nodup.filter _ (List.Nodup.of_map _ hWF.refbook_ids_nodup)
    exact List.count_eq_one_of_mem hnodup hr

theorem c4_witness :
    refbookList_get_queryset demoStore none = .ok demoStore.refbooks ∧
    ∃ qs, refbookList_get_queryset demoStore (some "2024-05-09") = .ok qs ∧
      (∀ r, r ∈ qs ↔ r ∈ demoStore.refbooks ∧
        ∃ v, get_version_or_404 demoStore none ⟨2024, 5, 9⟩ r = .ok v) ∧
      (∀ r ∈ qs, qs.count r = 1) :=
  c4_catalog_date_filter demoStore demoStore_wf ⟨2024, 5, 9⟩ "2024-05-09" rfl

/-- Claim C5, as stated, is false: the date parameter "2024-13-01" is invalid
(month 13), yet the catalog request does not behave as if no date were given —
`datetime.date` raises `ValueError`, an error, instead of returning the
unfiltered refbook list. -/
theorem c5_counterexample :
    refbookList_get_queryset demoStore (some "2024-13-01") = .error () ∧
    refbookList_get_queryset demoStore none = .ok demoStore.refbooks :=
  ⟨rfl, rfl⟩

/-- Claim C5 (amended): a `date` parameter that does not match the
`YYYY-MM-DD` regex (so `parse_date` yields no date) is treated as absent — no
filter is applied and all refbooks are returned without error; but a parameter
that matches the regex while not denoting a valid calendar date raises
`ValueError` instead of being treated as absent. -/
theorem c5_amended_invalid_date (s : Store) (dstr : String) :
    (parse_date dstr = .ok none →
      refbookList_get_queryset s (some dstr) = .ok s.refbooks) ∧
    (parse_date dstr = .error () →
      refbookList_get_queryset s (some dstr) = .error ()) := by
  constructor
  · intro h
    by_cases he : dstr = ""
    · subst he
      rfl
    · unfold refbookList_get_queryset
      simp [strTruthy_some_ne he, h]
  · intro h
    have he : dstr ≠ "" := by
      rintro rfl
      rw [show parse_date "" = .ok none from rfl] at h
      cases h
    unfold refbookList_get_queryset
    simp [strTruthy_some_ne he, h]

theorem c5_amended_witness :
    refbookList_get_queryset demoStore (some "not-a-date") =
      .ok demoStore.refbooks ∧
    refbookList_get_queryset demoStore (some "2024-2-30") = .error () :=
  ⟨(c5_amended_invalid_date demoStore "not-a-date").1 rfl,
    (c5_amended_invalid_date demoStore "2024-2-30").2 rfl⟩

/-- Claim C6: when `code` or `value` is missing or empty, the validation view
answers with the missing-parameters 400 response — for every store, refbook id
(valid or not) and version parameter, so before any refbook or version
lookup. -/
theorem c6_missing_parameters (s : Store) (refbook_id : Nat)
    (code value version_param : Option String) (d : PyDate)
    (h : code = none ∨ code = some "" ∨ value = none ∨ value = some "") :
    check_element_get s refbook_id code value version_param d =
      .error (.badRequest "Missing required parameters: code or/and value.") := by
  have hb : (!strTruthy code || !strTruthy value) = true := by
    rcases h with h | h | h | h <;> subst h <;> simp [strTruthy]
  unfold check_element_get
  simp [hb]

theorem c6_witness :
    check_element_get demoStore 999 none (some "x") none demoD =
      .error (.badRequest "Missing required parameters: code or/and value.") :=
  c6_missing_parameters demoStore 999 none (some "x") none demoD (Or.inl rfl)

/-- Claim C7: once the refbook and version lookups succeed, the validation
view returns `ok` of the boolean that is true exactly when the resolved
version has an item matching both `code` and `value` exactly — an absent pair
yields `ok false`, never an error. -/
theorem c7_validate_boolean (s : Store) (refbook_id : Nat) (c v : String)
    (version_param : Option String) (d : PyDate) (r : Refbook)
    (ver : RefbookVersion) (hc : c ≠ "") (hv : v ≠ "")
    (hr : get_refbook_or_404 s refbook_id = .ok r)
    (hver : get_version_or_404 s version_param d r = .ok ver) :
    check_element_get s refbook_id (some c) (some v) version_param d =
      .ok (decide (∃ it ∈ s.items, it.version_id = ver.id ∧
        it.code = c ∧ it.value = v)) := by
  have hiff : ((version_items s ver).any fun it =>
      it.code == c && it.value == v) = true ↔
      ∃ it ∈ s.items, it.version_id = ver.id ∧ it.code = c ∧ it.value = v := by
    simp only [List.any_eq_true, version_items, List.mem_filter,
      Bool.and_eq_true, beq_iff_eq]
    constructor
    · rintro ⟨it, ⟨h1, h2⟩, h3, h4⟩
      exact ⟨it, h1, h2, h3, h4⟩
    · rintro ⟨it, h1, h2, h3, h4⟩
      exact ⟨it, ⟨h1, h2⟩, h3, h4⟩
  have hbool : ((version_items s ver).any fun it =>
      it.code == c && it.value == v) =
      decide (∃ it ∈ s.items, it.version_id = ver.id ∧
        it.code = c ∧ it.value = v) := by
    by_cases hex : ∃ it ∈ s.items, it.version_id = ver.id ∧
        it.code = c ∧ it.value = v
    · rw [decide_eq_true hex]
      exact hiff.mpr hex
    · rw [decide_eq_false hex]
      cases hany : ((version_items s ver).any fun it =>
          it.code == c && it.value == v) with
      | false => rfl
      | true => exact absurd (hiff.mp hany) hex
  have hcond : (!strTruthy (some c) || !strTruthy (some v)) = false := by
    simp [strTruthy_some_ne hc, strTruthy_some_ne hv]
  unfold check_element_get
  simp only [hcond, Bool.false_eq_true, if_false, hr, hver, Option.getD_some]
  rw [hbool]

theorem c7_witness :
    check_element_get demoStore 2 (some "ITEM1") (some "Value 1") none demoD =
      .ok (decide (∃ it ∈ demoStore.items, it.version_id = demoV3.id ∧
        it.code = "ITEM1" ∧ it.value = "Value 1")) :=
  c7_validate_boolean demoStore 2 "ITEM1" "Value 1" none demoD demoRB2 demoV3
    (by decide) (by decide) rfl rfl

/-- Claim C8: when no refbook has the requested id, both the element-list view
and the validation view (given non-empty `code` and `value`) answer with the
refbook-not-found 404 — for every version parameter, so before any version
resolution. -/
theorem c8_refbook_not_found (s : Store) (refbook_id : Nat)
    (version_param code value : Option String) (d : PyDate)
    (habs : ∀ r ∈ s.refbooks, r.id ≠ refbook_id)
    (hc : strTruthy code = true) (hv : strTruthy value = true) :
    elements_get s refbook_id version_param d =
      .error (.notFound ("Refbook with ID \x27" ++ toString refbook_id ++
        "\x27 not found.")) ∧
    check_element_get s refbook_id code value version_param d =
      .error (.notFound ("Refbook with ID \x27" ++ toString refbook_id ++
        "\x27 not found.")) := by
  have hfil : s.refbooks.filter (fun rb => rb.id == refbook_id) = [] := by
    rw [List.filter_eq_nil_iff]
    intro a ha hpa
    exact habs a ha (by simpa using hpa)
  have hrb : get_refbook_or_404 s refbook_id =
      .error (.notFound ("Refbook with ID \x27" ++ toString refbook_id ++
        "\x27 not found.")) := by
    unfold get_refbook_or_404
    rw [hfil]
  have hcond : (!strTruthy code || !strTruthy value) = false := by
    rw [hc, hv]
    rfl
  constructor
  · unfold elements_get
    rw [hrb]
  · unfold check_element_get
    simp only [hcond, Bool.false_eq_true, if_false, hrb]

theorem c8_witness :
    elements_get demoStore 999 none demoD =
      .error (.notFound ("Refbook with ID \x27999\x27 not found.")) ∧
    check_element_get demoStore 999 (some "ITEM1") (some "Value 1") none demoD =
      .error (.notFound ("Refbook with ID \x27999\x27 not found.")) :=
  c8_refbook_not_found demoStore 999 none (some "ITEM1") (some "Value 1")
    demoD (by decide) rfl rfl

/-- Claim C9: a successful element listing comes from a single resolved
version: the result is exactly that version's item rows projected to
`(code, value)`, and in particular every returned element is the projection
of an item row belonging to the resolved version. -/
theorem c9_elements_projection (s : Store) (refbook_id : Nat)
    (version_param : Option String) (d : PyDate)
    (es : List (String × String))
    (h : elements_get s refbook_id version_param d = .ok es) :
    ∃ r ver, get_refbook_or_404 s refbook_id = .ok r ∧
      get_version_or_404 s version_param d r = .ok ver ∧
      es = (version_items s ver).map (fun it => (it.code, it.value)) ∧
      ∀ e ∈ es, ∃ it ∈ s.items, it.version_id = ver.id ∧
        e = (it.code, it.value) := by
  unfold elements_get at h
  cases h1 : get_refbook_or_404 s refbook_id with
  | error e =>
    rw [h1] at h
    cases h
  | ok r =>
    rw [h1] at h
    have h3 : (match get_version_or_404 s version_param d r with
        | Except.error e => Except.error e
        | Except.ok version => Except.ok ((version_items s version).map
            fun it => (it.code, it.value))) = Except.ok es := h
    cases h2 : get_version_or_404 s version_param d r with
    | error e =>
      rw [h2] at h3
      cases h3
    | ok ver =>
      rw [h2] at h3
      have hes : es = (version_items s ver).map fun it => (it.code, it.value) := by
        have h4 := h3
        simp at h4
        exact h4.symm
      refine ⟨r, ver, rfl, h2, hes, ?_⟩
      intro e he
      rw [hes, List.mem_map] at he
      obtain ⟨it, hit, rfl⟩ := he
      unfold version_items at hit
      rcases List.mem_filter.mp hit with ⟨hmem, hbeq⟩
      exact ⟨it, hmem, by simpa using hbeq, rfl⟩

theorem c9_witness :
    ∃ r ver, get_refbook_or_404 demoStore 2 = .ok r ∧
      get_version_or_404 demoStore none demoD r = .ok ver ∧
      [("ITEM1", "Value 1"), ("ITEM2", "Value 2")] =
        (version_items demoStore ver).map (fun it => (it.code, it.value)) ∧
      ∀ e ∈ [("ITEM1", "Value 1"), ("ITEM2", "Value 2")],
        ∃ it ∈ demoStore.items, it.version_id = ver.id ∧
          e = (it.code, it.value) :=
  c9_elements_projection demoStore 2 none demoD
    [("ITEM1", "Value 1"), ("ITEM2", "Value 2")] rfl

/-- Claim C10: an empty-string `version` parameter is falsy in Python, so both
views treat it exactly as an absent selector: the resolver takes the
latest-effective path (succeeding, or failing with the no-valid-version 404),
not the version-not-found path for an empty label. -/
theorem c10_empty_version_selector (s : Store) (refbook_id : Nat)
    (code value : Option String) (d : PyDate) (r : Refbook) :
    get_version_or_404 s (some "") d r = get_version_or_404 s none d r ∧
    elements_get s refbook_id (some "") d =
      elements_get s refbook_id none d ∧
    check_element_get s refbook_id code value (some "") d =
      check_element_get s refbook_id code value none d :=
  ⟨rfl, rfl, rfl⟩
